import Mathlib

/-!
Verification of the BlogHub content-publishing platform (React frontend plus
a spec-described backend core). JavaScript strings are modelled as `List Char`;
the ambient auth state, HTTP responses and the persisted article/comment/like
store are passed explicitly. Backend operations absent from the frontend
sources are modelled from the specification and marked as such.
-/

namespace BlogHub

/-- JavaScript `String.prototype.trim`: strip whitespace from both ends. -/
def jsTrim (s : List Char) : List Char :=
  ((s.dropWhile Char.isWhitespace).reverse.dropWhile Char.isWhitespace).reverse

/-- A signed-in user as held by `AuthContext` (`user` state): only the fields
the authorization helpers read. -/
structure User where
  id : String
  role : String
  deriving DecidableEq, Repr

/-- `AuthContext.isAdmin`: `user?.role === 'admin'` (false when `user` is null). -/
def isAdmin (user : Option User) : Bool :=
  match user with
  | none => false
  | some u => u.role == "admin"

/-- `AuthContext.isWriter`: `user?.role === 'writer' || user?.role === 'admin'`
(false when `user` is null). -/
def isWriter (user : Option User) : Bool :=
  match user with
  | none => false
  | some u => u.role == "writer" || u.role == "admin"

/-- `AuthContext.isReader`: `user?.role === 'reader'`. -/
def isReader (user : Option User) : Bool :=
  match user with
  | none => false
  | some u => u.role == "reader"

/-- The `ArticleEditor` `useEffect` gate: `if (!user || !isWriter()) navigate('/')`.
The create flow is offered exactly when this is `true`. -/
def editorAllowsCreate (user : Option User) : Bool :=
  user.isSome && isWriter user

/-- Claim C1: the create-article action is offered exactly to actors whose role
is `writer` or `admin`; it agrees with `isWriter`, and anonymous visitors and
readers are always redirected away. -/
theorem editor_create_gate_c1 (user : Option User) :
    (editorAllowsCreate user = true ↔
      ∃ u, user = some u ∧ (u.role = "writer" ∨ u.role = "admin"))
    ∧ editorAllowsCreate user = isWriter user
    ∧ editorAllowsCreate none = false
    ∧ (∀ u, user = some u → u.role = "reader" → editorAllowsCreate user = false) := by
  refine ⟨?_, ?_, rfl, ?_⟩
  · cases user with
    | none => simp [editorAllowsCreate, isWriter]
    | some u =>
      simp only [editorAllowsCreate, isWriter, Option.isSome_some, Bool.true_and,
        Bool.or_eq_true, beq_iff_eq]
      constructor
      · rintro (h | h)
        · exact ⟨u, rfl, Or.inl h⟩
        · exact ⟨u, rfl, Or.inr h⟩
      · rintro ⟨v, hv, h⟩
        cases Option.some.inj hv
        exact h
  · cases user with
    | none => rfl
    | some u => simp [editorAllowsCreate, isWriter]
  · rintro u rfl hr
    simp [editorAllowsCreate, isWriter, hr]

/-- Claim C1 witness: a concrete writer is offered create; a concrete reader
is not. -/
theorem editor_create_gate_c1_witness :
    editorAllowsCreate (some { id := "w1", role := "writer" }) = true
    ∧ editorAllowsCreate (some { id := "r1", role := "reader" }) = false := by
  constructor
  · exact (editor_create_gate_c1 (some { id := "w1", role := "writer" })).1.mpr
      ⟨{ id := "w1", role := "writer" }, rfl, Or.inl rfl⟩
  · exact (editor_create_gate_c1 (some { id := "r1", role := "reader" })).2.2.2
      { id := "r1", role := "reader" } rfl rfl

/-- Modelled from the spec: the backend like store for one fixed article — the
set of user ids holding a `Like` row for it, together with the article's cached
`likes_count`. The backend server code is not in the frontend sources. -/
structure LikeState where
  likes : List String
  likes_count : Int
  deriving DecidableEq, Repr

/-- Modelled from the spec: backend `toggleLike(actorId, articleId)` (server not
in the frontend sources) — "if a Like(article,actor) row exists, remove it and
decrement likes_count by 1 and return liked=false; else insert it and increment
likes_count by 1 and return liked=true". -/
def toggleLike (u : String) (s : LikeState) : Bool × LikeState :=
  if u ∈ s.likes then
    (false, { likes := s.likes.erase u, likes_count := s.likes_count - 1 })
  else
    (true, { likes := u :: s.likes, likes_count := s.likes_count + 1 })

/-- `ArticleDetail.handleLike` state update on a like response:
`likes_count: response.liked ? prev.likes_count + 1 : prev.likes_count - 1`. -/
def applyLikeResponse (liked : Bool) (likes_count : Int) : Int :=
  if liked then likes_count + 1 else likes_count - 1

/-- Claim C2 counterexample: in a state where the user already holds a Like row,
the first of two sequential `toggleLike` calls returns liked=false, not
liked=true as the claim states for every article and user. -/
theorem toggle_like_counterexample_c2 :
    ¬ ((toggleLike "u1" { likes := ["u1"], likes_count := 1 }).1 = true) := by
  decide

/-- Claim C2 (amended): on a like set satisfying the uniqueness invariant (no
duplicate user ids), two sequential `toggleLike(U,A)` calls leave `likes_count`
at its original value and return opposite flags; they return liked=true then
liked=false exactly when U had not already liked A; and the client-side update
for liked=true followed by the one for liked=false is the identity on
`likes_count`. -/
theorem toggle_like_roundtrip_c2 (s : LikeState) (u : String) (h : s.likes.Nodup) :
    (toggleLike u (toggleLike u s).2).2.likes_count = s.likes_count
    ∧ (toggleLike u (toggleLike u s).2).1 = !(toggleLike u s).1
    ∧ ((toggleLike u s).1 = true ∧ (toggleLike u (toggleLike u s).2).1 = false
        ↔ u ∉ s.likes)
    ∧ (∀ n : Int, applyLikeResponse false (applyLikeResponse true n) = n) := by
  by_cases hm : u ∈ s.likes
  · have hne : u ∉ s.likes.erase u := h.not_mem_erase
    refine ⟨?_, ?_, ?_, fun n => ?_⟩
    · simp [toggleLike, hm, hne]
    · simp [toggleLike, hm, hne]
    · constructor
      · rintro ⟨h1, -⟩
        simp [toggleLike, hm] at h1
      · intro hc
        exact absurd hm hc
    · simp [applyLikeResponse]
  · have hmem : u ∈ u :: s.likes := List.mem_cons_self u s.likes
    refine ⟨?_, ?_, ?_, fun n => ?_⟩
    · simp [toggleLike, hm, hmem]
    · simp [toggleLike, hm, hmem]
    · constructor
      · intro _
        exact hm
      · intro _
        constructor
        · simp [toggleLike, hm]
        · simp [toggleLike, hm, hmem]
    · simp [applyLikeResponse]

/-- Claim C2 witness: a concrete fresh state, toggled twice by one user. -/
theorem toggle_like_roundtrip_c2_witness :
    (toggleLike "u1" (toggleLike "u1" { likes := [], likes_count := 4 }).2).2.likes_count = 4
    ∧ (toggleLike "u1" { likes := [], likes_count := 4 }).1 = true
    ∧ (toggleLike "u1" (toggleLike "u1" { likes := [], likes_count := 4 }).2).1 = false := by
  have h := toggle_like_roundtrip_c2 { likes := [], likes_count := 4 } "u1" (by decide)
  have h3 := h.2.2.1.mpr (by decide)
  exact ⟨h.1, h3.1, h3.2⟩

/-- The literal three-dot suffix appended by `truncateContent`. -/
def ellipsis : List Char := ['.', '.', '.']

/-- `ArticleCard.truncateContent(content, maxLength)`: return `content` when its
length is at most `maxLength`, else the first `maxLength` characters, trimmed,
with `'...'` appended. -/
def truncateContent (content : List Char) (maxLength : Nat) : List Char :=
  if content.length ≤ maxLength then content
  else jsTrim (content.take maxLength) ++ ellipsis

theorem jsTrim_length_le (s : List Char) : (jsTrim s).length ≤ s.length := by
  unfold jsTrim
  calc (((s.dropWhile Char.isWhitespace).reverse.dropWhile Char.isWhitespace).reverse).length
      = ((s.dropWhile Char.isWhitespace).reverse.dropWhile Char.isWhitespace).length := by
        rw [List.length_reverse]
    _ ≤ (s.dropWhile Char.isWhitespace).reverse.length :=
        (List.dropWhile_sublist _).length_le
    _ = (s.dropWhile Char.isWhitespace).length := by rw [List.length_reverse]
    _ ≤ s.length := (List.dropWhile_sublist _).length_le

set_option maxRecDepth 40000 in
/-- Claim C9 counterexample: a 153-character content made of 150 letters
followed by `'...'` is returned unchanged although it is longer than 150
characters; and a content that is itself `'...'` (length 3) is returned ending
in `'...'` although it is not longer than 150 characters. -/
theorem truncate_content_counterexample_c9 :
    (truncateContent (List.replicate 150 'a' ++ ellipsis) 150 = List.replicate 150 'a' ++ ellipsis
      ∧ 150 < (List.replicate 150 'a' ++ ellipsis).length)
    ∧ (truncateContent ellipsis 150 = ellipsis
      ∧ ellipsis <:+ truncateContent ellipsis 150
      ∧ ellipsis.length ≤ 150) := by
  decide

/-- Claim C9 (amended): `truncateContent(content, 150)` returns `content`
unchanged whenever its length is at most 150 (though certain longer contents
are also returned equal to themselves); when content is longer than 150
characters it returns the first 150 characters with surrounding whitespace
trimmed followed by `'...'`, so the result has length at most 153 and ends with
`'...'` (a short content may also end with `'...'` on its own). -/
theorem truncate_content_spec_c9 (content : List Char) :
    (content.length ≤ 150 → truncateContent content 150 = content)
    ∧ (150 < content.length →
        truncateContent content 150 = jsTrim (content.take 150) ++ ellipsis
        ∧ (truncateContent content 150).length ≤ 153
        ∧ ellipsis <:+ truncateContent content 150) := by
  constructor
  · intro h
    simp [truncateContent, h]
  · intro h
    have hif : truncateContent content 150 = jsTrim (content.take 150) ++ ellipsis := by
      simp [truncateContent, Nat.not_le.mpr h]
    refine ⟨hif, ?_, ?_⟩
    · rw [hif, List.length_append]
      have h1 : (jsTrim (content.take 150)).length ≤ (content.take 150).length :=
        jsTrim_length_le _
      have h2 : (content.take 150).length ≤ 150 := by
        rw [List.length_take]
        exact min_le_left _ _
      have h3 : ellipsis.length = 3 := by decide
      omega
    · rw [hif]
      exact List.suffix_append _ _

set_option maxRecDepth 40000 in
/-- Claim C9 witness: concrete short and long contents. -/
theorem truncate_content_spec_c9_witness :
    truncateContent ['h', 'i'] 150 = ['h', 'i']
    ∧ (truncateContent (List.replicate 151 'b') 150).length ≤ 153 := by
  refine ⟨(truncate_content_spec_c9 ['h', 'i']).1 (by decide), ?_⟩
  exact ((truncate_content_spec_c9 (List.replicate 151 'b')).2 (by decide)).2.1

/-- Article lifecycle status: `draft` or `published`. -/
inductive ArticleStatus where
  | draft
  | published
  deriving DecidableEq, Repr

/-- An article row as described by the data model and rendered by the pages. -/
structure Article where
  id : String
  title : List Char
  content : List Char
  category : Option (List Char)
  tags : List (List Char)
  author_id : String
  status : ArticleStatus
  featured : Bool
  likes_count : Int
  views_count : Int
  created_at : Nat
  published_at : Option Nat
  deriving DecidableEq, Repr

/-- Modelled from the spec: backend `publish(actorId, articleId)` (server not in
the frontend sources) — "no-op-with-success if already published (idempotent);
on first transition sets status=published and published_at=now". -/
def publish (now : Nat) (a : Article) : Article :=
  if a.status = .published then a
  else { a with status := .published, published_at := some now }

/-- `WriterDashboard`: the Publish button is rendered only when
`article.status === 'draft'`. -/
def showPublishButton (a : Article) : Bool :=
  a.status == .draft

/-- Claim C4: publish is idempotent — a second publish is a no-op that leaves
status published and `published_at` unchanged; `published_at` is set on the
first draft-to-published transition; and after publishing, the dashboard no
longer offers a Publish button. -/
theorem publish_idempotent_c4 (a : Article) (t1 t2 : Nat) :
    (publish t1 a).status = .published
    ∧ publish t2 (publish t1 a) = publish t1 a
    ∧ (publish t2 (publish t1 a)).published_at = (publish t1 a).published_at
    ∧ (a.status = .draft → (publish t1 a).published_at = some t1)
    ∧ (a.status = .published → publish t1 a = a)
    ∧ showPublishButton (publish t1 a) = false := by
  cases h : a.status with
  | draft =>
    refine ⟨?_, ?_, ?_, fun _ => ?_, fun hc => ?_, ?_⟩ <;>
      simp [publish, showPublishButton, h] at *
  | published =>
    refine ⟨?_, ?_, ?_, fun hc => ?_, fun _ => ?_, ?_⟩ <;>
      simp [publish, showPublishButton, h] at *

/-- A sample draft article used to instantiate hypotheses at concrete inputs. -/
def sampleDraft : Article :=
  { id := "a1", title := ['t'], content := ['c'], category := none, tags := []
  , author_id := "w1", status := .draft, featured := false, likes_count := 0
  , views_count := 0, created_at := 1, published_at := none }

/-- Claim C4 witness: publishing a concrete draft twice. -/
theorem publish_idempotent_c4_witness :
    (publish 7 sampleDraft).published_at = some 7
    ∧ publish 9 (publish 7 sampleDraft) = publish 7 sampleDraft := by
  have h := publish_idempotent_c4 sampleDraft 7 9
  exact ⟨h.2.2.2.1 rfl, h.2.1⟩

/-- Modelled from the spec: the trending order — "published articles ordered by
likes_count descending; ties broken by created_at descending". -/
def trendBefore (a b : Article) : Prop :=
  b.likes_count < a.likes_count
  ∨ (a.likes_count = b.likes_count ∧ b.created_at ≤ a.created_at)

instance trendBeforeDec : DecidableRel trendBefore := fun a b =>
  inferInstanceAs (Decidable (b.likes_count < a.likes_count
    ∨ (a.likes_count = b.likes_count ∧ b.created_at ≤ a.created_at)))

instance trendBeforeTotal : IsTotal Article trendBefore := by
  constructor
  intro a b
  unfold trendBefore
  omega

instance trendBeforeTrans : IsTrans Article trendBefore := by
  constructor
  intro a b c hab hbc
  unfold trendBefore at *
  omega

/-- Modelled from the spec: the created_at-descending order used by the
featured and published listings — "most recent first". -/
def newestFirst (a b : Article) : Prop :=
  b.created_at ≤ a.created_at

instance newestFirstDec : DecidableRel newestFirst := fun a b =>
  inferInstanceAs (Decidable (b.created_at ≤ a.created_at))

instance newestFirstTotal : IsTotal Article newestFirst := by
  constructor
  intro a b
  unfold newestFirst
  omega

instance newestFirstTrans : IsTrans Article newestFirst := by
  constructor
  intro a b c hab hbc
  unfold newestFirst at *
  omega

/-- Modelled from the spec: `trending(limit)` — published articles ordered by
likes_count descending with created_at-descending tie-break, truncated. -/
def trending (limit : Nat) (store : List Article) : List Article :=
  ((store.filter fun a => a.status == .published).insertionSort trendBefore).take limit

/-- Modelled from the spec: `featured(limit)` — published articles with
featured=true, ordered by created_at descending, truncated. -/
def featuredList (limit : Nat) (store : List Article) : List Article :=
  ((store.filter fun a => a.status == .published && a.featured).insertionSort
    newestFirst).take limit

/-- The optional filters accepted by `listPublished`. -/
structure ArticleFilters where
  category : Option (List Char)
  author_id : Option String
  tag : Option (List Char)
  deriving Repr

/-- Modelled from the spec: the optional {category, author_id, tag} match. -/
def matchesFilters (f : ArticleFilters) (a : Article) : Bool :=
  (match f.category with
   | none => true
   | some c => a.category == some c)
  && (match f.author_id with
      | none => true
      | some u => a.author_id == u)
  && (match f.tag with
      | none => true
      | some t => a.tags.contains t)

/-- Modelled from the spec: `listPublished(filters)` — published articles
matching the optional filters, ordered by created_at descending. -/
def listPublished (f : ArticleFilters) (store : List Article) : List Article :=
  (store.filter fun a => a.status == .published && matchesFilters f a).insertionSort
    newestFirst

/-- The query parameter `Home.loadArticles` passes for the recent listing:
`getArticles({ status: 'published' })`. -/
def homeRecentStatusParam : Option String :=
  some "published"

/-- Claim C7: none of the trending, featured or published-list selectors ever
returns a draft article, and the home page requests only published articles for
its recent listing. -/
theorem selectors_exclude_drafts_c7 (limit : Nat) (f : ArticleFilters)
    (store : List Article) (a : Article) :
    (a ∈ trending limit store → a.status = .published)
    ∧ (a ∈ featuredList limit store → a.status = .published ∧ a.featured = true)
    ∧ (a ∈ listPublished f store → a.status = .published)
    ∧ homeRecentStatusParam = some "published" := by
  refine ⟨?_, ?_, ?_, rfl⟩
  · intro h
    have h1 := List.take_subset limit _ h
    rw [List.mem_insertionSort] at h1
    have h2 := (List.mem_filter.mp h1).2
    exact of_decide_eq_true h2
  · intro h
    have h1 := List.take_subset limit _ h
    rw [List.mem_insertionSort] at h1
    have h2 := (List.mem_filter.mp h1).2
    rw [Bool.and_eq_true] at h2
    exact ⟨of_decide_eq_true h2.1, h2.2⟩
  · intro h
    rw [listPublished, List.mem_insertionSort] at h
    have h2 := (List.mem_filter.mp h).2
    rw [Bool.and_eq_true] at h2
    exact of_decide_eq_true h2.1

/-- A sample published article used to instantiate selector claims. -/
def samplePublished : Article :=
  { id := "a2", title := ['p'], content := ['q'], category := none, tags := []
  , author_id := "w1", status := .published, featured := true, likes_count := 2
  , views_count := 5, created_at := 3, published_at := some 4 }

/-- Claim C7 witness: the selectors applied to a concrete one-article store. -/
theorem selectors_exclude_drafts_c7_witness :
    samplePublished.status = .published ∧ samplePublished.featured = true := by
  have h := selectors_exclude_drafts_c7 6 ⟨none, none, none⟩ [samplePublished] samplePublished
  exact h.2.1 (by decide)

/-- Sample published article with likes_count 5 (created_at 40). -/
def art5 : Article :=
  { sampleDraft with id := "t5", status := .published, likes_count := 5, created_at := 40 }

/-- Sample published article with likes_count 3, the older of the two ties
(created_at 10). -/
def art3a : Article :=
  { sampleDraft with id := "t3a", status := .published, likes_count := 3, created_at := 10 }

/-- Sample published article with likes_count 3, the newer of the two ties
(created_at 20). -/
def art3b : Article :=
  { sampleDraft with id := "t3b", status := .published, likes_count := 3, created_at := 20 }

/-- Sample published article with likes_count 1 (created_at 30). -/
def art1 : Article :=
  { sampleDraft with id := "t1", status := .published, likes_count := 1, created_at := 30 }

/-- Claim C8: `trending(limit)` returns published articles from the store,
sorted by likes_count descending with created_at-descending tie-break, at most
`limit` of them; on the concrete store with likes_count 5, 3, 3, 1 and distinct
timestamps, `trending 3` returns the top three with the two count-3 articles
ordered newest first. -/
theorem trending_order_c8 (limit : Nat) (store : List Article) :
    List.Sorted trendBefore (trending limit store)
    ∧ (trending limit store).length ≤ limit
    ∧ (∀ a ∈ trending limit store, a ∈ store ∧ a.status = .published)
    ∧ trending 3 [art1, art3a, art5, art3b] = [art5, art3b, art3a] := by
  refine ⟨?_, ?_, ?_, by decide⟩
  · exact List.Pairwise.sublist (List.take_sublist _ _) (List.sorted_insertionSort _ _)
  · exact List.length_take_le _ _
  · intro a h
    have h1 := List.take_subset limit _ h
    rw [List.mem_insertionSort] at h1
    have h2 := List.mem_filter.mp h1
    exact ⟨h2.1, of_decide_eq_true h2.2⟩

/-- Claim C8 witness: membership of the top article in the concrete store. -/
theorem trending_order_c8_witness :
    art5 ∈ [art1, art3a, art5, art3b] ∧ art5.status = .published := by
  have h := trending_order_c8 3 [art1, art3a, art5, art3b]
  exact h.2.2.1 art5 (by decide)

/-- Comment moderation status: `pending`, `approved` or `rejected`. -/
inductive CommentStatus where
  | pending
  | approved
  | rejected
  deriving DecidableEq, Repr

/-- A comment row as described by the data model. -/
structure Comment where
  id : String
  article_id : String
  user_name : String
  content : List Char
  status : CommentStatus
  created_at : Nat
  deriving DecidableEq, Repr

/-- Modelled from the spec: the created_at-ascending order of `listApproved`. -/
def oldestFirst (c d : Comment) : Prop :=
  c.created_at ≤ d.created_at

instance oldestFirstDec : DecidableRel oldestFirst := fun c d =>
  inferInstanceAs (Decidable (c.created_at ≤ d.created_at))

instance oldestFirstTotal : IsTotal Comment oldestFirst := by
  constructor
  intro a b
  unfold oldestFirst
  omega

instance oldestFirstTrans : IsTrans Comment oldestFirst := by
  constructor
  intro a b c hab hbc
  unfold oldestFirst at *
  omega

/-- Modelled from the spec: `listApproved(articleId)` (server not in the
frontend sources) — "returns only status=approved, ordered by created_at
ascending"; this is the public read path behind `getComments`. -/
def listApproved (articleId : String) (store : List Comment) : List Comment :=
  (store.filter fun c => c.article_id == articleId && c.status == .approved).insertionSort
    oldestFirst

/-- Modelled from the spec: the comment produced by `create(actorId, articleId,
content)` — "produces Comment in pending; denormalizes user_name at creation". -/
def mkPendingComment (id articleId userName : String) (content : List Char) (t : Nat) :
    Comment :=
  { id := id, article_id := articleId, user_name := userName, content := content
  , status := .pending, created_at := t }

/-- Modelled from the spec: comment `create` appends the new pending comment to
the store. -/
def createCommentOp (id articleId userName : String) (content : List Char) (t : Nat)
    (store : List Comment) : List Comment :=
  store ++ [mkPendingComment id articleId userName content t]

/-- Moderation failures: absent id, or a one-shot transition re-run. -/
inductive ModError where
  | notFound
  | invalidTransition
  deriving DecidableEq, Repr

/-- Modelled from the spec: `approve(actorId, commentId)` — "only legal from
pending; transitioning an already-approved or already-rejected comment fails
with InvalidTransition". -/
def approveComment (id : String) (store : List Comment) :
    Except ModError (List Comment) :=
  match store.find? (fun c => c.id == id) with
  | none => .error .notFound
  | some c =>
    if c.status = .pending then
      .ok (store.map fun d => if d.id == id then { d with status := .approved } else d)
    else .error .invalidTransition

/-- Modelled from the spec: `reject(actorId, commentId)` — symmetric to
approve, from pending only. -/
def rejectComment (id : String) (store : List Comment) :
    Except ModError (List Comment) :=
  match store.find? (fun c => c.id == id) with
  | none => .error .notFound
  | some c =>
    if c.status = .pending then
      .ok (store.map fun d => if d.id == id then { d with status := .rejected } else d)
    else .error .invalidTransition

/-- Modelled from the spec: `delete(actorId, commentId)` — legal from any
status, unconditional removal. -/
def deleteComment (id : String) (store : List Comment) :
    Except ModError (List Comment) :=
  match store.find? (fun c => c.id == id) with
  | none => .error .notFound
  | some _ => .ok (store.filter fun d => !(d.id == id))

/-- A moderation-engine request, used to quantify over op sequences. -/
inductive ModOp where
  | create (id articleId userName : String) (content : List Char) (t : Nat)
  | approveOp (id : String)
  | rejectOp (id : String)
  | deleteOp (id : String)

/-- Run one moderation request against the store; failed requests leave the
store unchanged (the spec: no operation partially applies). -/
def runModOp (op : ModOp) (store : List Comment) : List Comment :=
  match op with
  | .create id aid un ct t => createCommentOp id aid un ct t store
  | .approveOp id =>
    match approveComment id store with
    | .ok s => s
    | .error _ => store
  | .rejectOp id =>
    match rejectComment id store with
    | .ok s => s
    | .error _ => store
  | .deleteOp id =>
    match deleteComment id store with
    | .ok s => s
    | .error _ => store

/-- Run a sequence of moderation requests. -/
def runModOps (ops : List ModOp) (store : List Comment) : List Comment :=
  ops.foldl (fun s op => runModOp op s) store

/-- Every comment carrying this id in the store is rejected (so it can never be
listed, and — approve being legal only from pending — never will be). -/
def HiddenId (cid : String) (store : List Comment) : Prop :=
  ∀ c ∈ store, c.id = cid → c.status = .rejected

/-- Ids are unique; a later create never reuses the id of this comment. -/
def avoidsId (cid : String) (op : ModOp) : Prop :=
  match op with
  | .create id _ _ _ _ => id ≠ cid
  | _ => True

theorem mem_listApproved {c : Comment} {aid : String} {store : List Comment} :
    c ∈ listApproved aid store ↔
      c ∈ store ∧ c.article_id = aid ∧ c.status = .approved := by
  unfold listApproved
  rw [List.mem_insertionSort, List.mem_filter, Bool.and_eq_true, beq_iff_eq, beq_iff_eq]

theorem hiddenId_runModOp (cid : String) (op : ModOp) (store : List Comment)
    (hH : HiddenId cid store) (hav : avoidsId cid op) :
    HiddenId cid (runModOp op store) := by
  cases op with
  | create id aid un ct t =>
    intro c hc hcid
    rcases List.mem_append.mp hc with hin | hin
    · exact hH c hin hcid
    · rw [List.mem_singleton] at hin
      subst hin
      exact absurd hcid hav
  | approveOp id =>
    intro c hc hcid
    simp only [runModOp] at hc
    cases hfind : store.find? (fun d => d.id == id) with
    | none => simp only [approveComment, hfind] at hc; exact hH c hc hcid
    | some c0 =>
      by_cases hp : c0.status = .pending
      · simp only [approveComment, hfind, if_pos hp] at hc
        rcases List.mem_map.mp hc with ⟨d, hd, hde⟩
        by_cases hdi : d.id == id
        · rw [if_pos hdi] at hde
          subst hde
          have hic : id = cid := by
            rw [← beq_iff_eq.mp hdi]
            exact hcid
          have hc0 : c0 ∈ store := List.mem_of_find?_eq_some hfind
          have hc0p : c0.id = id := by
            have h1 := List.find?_some hfind
            simpa using h1
          have hc0id : c0.id = cid := by rw [hc0p, hic]
          have hrej := hH c0 hc0 hc0id
          rw [hrej] at hp
          exact absurd hp (by decide)
        · rw [if_neg hdi] at hde
          subst hde
          exact hH d hd hcid
      · simp only [approveComment, hfind, if_neg hp] at hc
        exact hH c hc hcid
  | rejectOp id =>
    intro c hc hcid
    simp only [runModOp] at hc
    cases hfind : store.find? (fun d => d.id == id) with
    | none => simp only [rejectComment, hfind] at hc; exact hH c hc hcid
    | some c0 =>
      by_cases hp : c0.status = .pending
      · simp only [rejectComment, hfind, if_pos hp] at hc
        rcases List.mem_map.mp hc with ⟨d, hd, hde⟩
        by_cases hdi : d.id == id
        · rw [if_pos hdi] at hde
          subst hde
          rfl
        · rw [if_neg hdi] at hde
          subst hde
          exact hH d hd hcid
      · simp only [rejectComment, hfind, if_neg hp] at hc
        exact hH c hc hcid
  | deleteOp id =>
    intro c hc hcid
    simp only [runModOp] at hc
    cases hfind : store.find? (fun d => d.id == id) with
    | none => simp only [deleteComment, hfind] at hc; exact hH c hc hcid
    | some c0 =>
      simp only [deleteComment, hfind] at hc
      exact hH c (List.mem_of_mem_filter hc) hcid

theorem hiddenId_runModOps (cid : String) (ops : List ModOp) (store : List Comment)
    (hH : HiddenId cid store) (hav : ∀ op ∈ ops, avoidsId cid op) :
    HiddenId cid (runModOps ops store) := by
  induction ops generalizing store with
  | nil => exact hH
  | cons op rest ih =>
    have h1 := hiddenId_runModOp cid op store hH (hav op (List.mem_cons_self op rest))
    exact ih (runModOp op store) h1 (fun o ho => hav o (List.mem_cons_of_mem op ho))

theorem hiddenId_of_reject (cid : String) (store store2 : List Comment)
    (h : rejectComment cid store = .ok store2) : HiddenId cid store2 := by
  cases hfind : store.find? (fun c => c.id == cid) with
  | none =>
    simp only [rejectComment, hfind] at h
    exact Except.noConfusion h
  | some c0 =>
    by_cases hp : c0.status = .pending
    · simp only [rejectComment, hfind, if_pos hp] at h
      cases h
      intro c hc hcid
      rcases List.mem_map.mp hc with ⟨d, hd, hde⟩
      by_cases hdi : d.id == cid
      · rw [if_pos hdi] at hde
        subst hde
        rfl
      · rw [if_neg hdi] at hde
        subst hde
        exact absurd (beq_iff_eq.mpr hcid) hdi
    · simp only [rejectComment, hfind, if_neg hp] at h
      exact Except.noConfusion h

theorem hiddenId_of_delete (cid : String) (store store2 : List Comment)
    (h : deleteComment cid store = .ok store2) : HiddenId cid store2 := by
  cases hfind : store.find? (fun c => c.id == cid) with
  | none =>
    simp only [deleteComment, hfind] at h
    exact Except.noConfusion h
  | some c0 =>
    simp only [deleteComment, hfind] at h
    cases h
    intro c hc hcid
    have hp := List.of_mem_filter hc
    exact absurd (beq_iff_eq.mpr hcid) (by simpa using hp)

theorem find?_createCommentOp (id aid un : String) (ct : List Char) (t : Nat)
    (store : List Comment) (hfresh : ∀ d ∈ store, d.id ≠ id) :
    (createCommentOp id aid un ct t store).find? (fun c => c.id == id)
      = some (mkPendingComment id aid un ct t) := by
  unfold createCommentOp
  induction store with
  | nil => simp [mkPendingComment]
  | cons d rest ih =>
    have hd : d.id ≠ id := hfresh d (List.mem_cons_self _ _)
    rw [List.cons_append, List.find?_cons_of_neg _ (by simpa using hd)]
    exact ih (fun e he => hfresh e (List.mem_cons_of_mem d he))

/-- The action `ArticleDetail.handleCommentSubmit` takes. -/
inductive SubmitResult where
  | redirectSignIn
  | errorEmpty
  | apiCreate (article_id : String) (content : List Char)
  deriving DecidableEq, Repr

/-- `ArticleDetail.handleCommentSubmit`: redirect to sign-in when `user` is
null; report an error when the comment text trims to empty; otherwise call
`createComment({ article_id: id, content: newComment })` and clear the input.
The result pairs the action with the next (comments, newComment) state; note
the displayed `comments` state is never changed. -/
def handleCommentSubmit (user : Option User) (articleId : String)
    (comments : List Comment) (newComment : List Char) :
    SubmitResult × List Comment × List Char :=
  match user with
  | none => (.redirectSignIn, comments, newComment)
  | some _ =>
    if jsTrim newComment = [] then (.errorEmpty, comments, newComment)
    else (.apiCreate articleId newComment, comments, [])

/-- Claim C3: a comment is in the public read path iff its status is approved;
creating a comment changes no public listing (pending); after a successful
reject or delete the comment never again appears in any public listing, over
every later op sequence that does not reuse its id; a fresh comment does appear
once approved; and the client submit handler leaves the displayed comment list
unchanged. -/
theorem comment_visibility_c3 (aid : String) (store : List Comment) :
    (∀ c, c ∈ listApproved aid store ↔
        c ∈ store ∧ c.article_id = aid ∧ c.status = .approved)
    ∧ (∀ id aid2 un ct t,
        listApproved aid (createCommentOp id aid2 un ct t store) = listApproved aid store)
    ∧ (∀ cid store2 ops, rejectComment cid store = .ok store2 →
        (∀ op ∈ ops, avoidsId cid op) →
        ∀ d ∈ listApproved aid (runModOps ops store2), d.id ≠ cid)
    ∧ (∀ cid store2 ops, deleteComment cid store = .ok store2 →
        (∀ op ∈ ops, avoidsId cid op) →
        ∀ d ∈ listApproved aid (runModOps ops store2), d.id ≠ cid)
    ∧ (∀ id un ct t, (∀ d ∈ store, d.id ≠ id) →
        ∃ store2, approveComment id (createCommentOp id aid un ct t store) = .ok store2
          ∧ { mkPendingComment id aid un ct t with status := .approved }
              ∈ listApproved aid store2)
    ∧ (∀ user comments nc, (handleCommentSubmit user aid comments nc).2.1 = comments) := by
  refine ⟨fun c => mem_listApproved, ?_, ?_, ?_, ?_, ?_⟩
  · intro id aid2 un ct t
    unfold listApproved createCommentOp
    rw [List.filter_append]
    simp [mkPendingComment]
  · intro cid store2 ops hrej hav d hd hdc
    have hH := hiddenId_runModOps cid ops store2 (hiddenId_of_reject cid store store2 hrej) hav
    have h1 := mem_listApproved.mp hd
    have h2 := h1.2.2
    rw [hH d h1.1 hdc] at h2
    exact absurd h2 (by decide)
  · intro cid store2 ops hdel hav d hd hdc
    have hH := hiddenId_runModOps cid ops store2 (hiddenId_of_delete cid store store2 hdel) hav
    have h1 := mem_listApproved.mp hd
    have h2 := h1.2.2
    rw [hH d h1.1 hdc] at h2
    exact absurd h2 (by decide)
  · intro id un ct t hfresh
    refine ⟨(createCommentOp id aid un ct t store).map
      (fun d => if d.id == id then { d with status := .approved } else d), ?_, ?_⟩
    · unfold approveComment
      rw [find?_createCommentOp id aid un ct t store hfresh]
      rfl
    · refine mem_listApproved.mpr ⟨?_, rfl, rfl⟩
      refine List.mem_map.mpr ⟨mkPendingComment id aid un ct t, ?_, ?_⟩
      · exact List.mem_append.mpr (Or.inr (List.mem_singleton.mpr rfl))
      · have hbeq : ((mkPendingComment id aid un ct t).id == id) = true :=
          beq_iff_eq.mpr rfl
        rw [if_pos hbeq]
  · intro user comments nc
    cases user with
    | none => rfl
    | some u =>
      by_cases h : jsTrim nc = []
      · simp [handleCommentSubmit, h]
      · simp [handleCommentSubmit, h]

/-- The concrete approved comment used to instantiate the moderation claims. -/
def approvedC1 : Comment :=
  { id := "c1", article_id := "a1", user_name := "u", content := ['x']
  , status := CommentStatus.approved, created_at := 3 }

/-- Claim C3 witness: a freshly created comment on an empty store, approved,
appears in the public listing of its article. -/
theorem comment_visibility_c3_witness :
    approveComment "c1" (createCommentOp "c1" "a1" "u" ['x'] 3 []) = .ok [approvedC1]
    ∧ approvedC1 ∈ listApproved "a1" [approvedC1] := by
  have h := (comment_visibility_c3 "a1" []).2.2.2.2.1 "c1" "u" ['x'] 3 (by simp)
  obtain ⟨s2, h1, h2⟩ := h
  have hcalc : approveComment "c1" (createCommentOp "c1" "a1" "u" ['x'] 3 [])
      = .ok [approvedC1] := rfl
  have hs2 : s2 = [approvedC1] := by
    rw [hcalc] at h1
    exact (Except.ok.inj h1).symm
  subst hs2
  exact ⟨hcalc, h2⟩

/-- Claim C6: comment creation requires a signed-in actor (else redirect
without calling the API) and non-whitespace content (else an error without
calling the API); otherwise `createComment` is called with the article id and
the content, and the comment the backend creates from it starts as pending. -/
theorem comment_create_gate_c6 (user : Option User) (aid : String)
    (comments : List Comment) (nc : List Char) :
    (user = none →
      handleCommentSubmit user aid comments nc = (.redirectSignIn, comments, nc))
    ∧ (∀ u, user = some u → jsTrim nc = [] →
        handleCommentSubmit user aid comments nc = (.errorEmpty, comments, nc))
    ∧ (∀ u, user = some u → jsTrim nc ≠ [] →
        handleCommentSubmit user aid comments nc = (.apiCreate aid nc, comments, []))
    ∧ (∀ id un t, (mkPendingComment id aid un nc t).status = .pending) := by
  refine ⟨?_, ?_, ?_, fun id un t => rfl⟩
  · rintro rfl
    rfl
  · rintro u rfl h
    simp [handleCommentSubmit, h]
  · rintro u rfl h
    simp [handleCommentSubmit, h]

/-- Claim C6 witness: the three branches at concrete inputs. -/
theorem comment_create_gate_c6_witness :
    handleCommentSubmit none "a1" [] ['h', 'i'] = (.redirectSignIn, [], ['h', 'i'])
    ∧ handleCommentSubmit (some { id := "r1", role := "reader" }) "a1" [] [' ']
        = (.errorEmpty, [], [' '])
    ∧ handleCommentSubmit (some { id := "r1", role := "reader" }) "a1" [] ['h', 'i']
        = (.apiCreate "a1" ['h', 'i'], [], []) := by
  refine ⟨?_, ?_, ?_⟩
  · exact (comment_create_gate_c6 none "a1" [] ['h', 'i']).1 rfl
  · exact (comment_create_gate_c6 (some { id := "r1", role := "reader" }) "a1" [] [' ']).2.1
      { id := "r1", role := "reader" } rfl (by decide)
  · exact (comment_create_gate_c6 (some { id := "r1", role := "reader" }) "a1" [] ['h', 'i']).2.2.1
      { id := "r1", role := "reader" } rfl (by decide)

/-- The payload `ArticleEditor.handleSubmit` builds for the article APIs. -/
structure ArticlePayload where
  title : List Char
  content : List Char
  category : Option (List Char)
  tags : List (List Char)
  deriving DecidableEq, Repr

/-- What `ArticleEditor.handleSubmit` does: report a validation error without
calling any API, or call `createArticle` / `updateArticle` with a payload. -/
inductive EditorAction where
  | validationFailed
  | createCall (payload : ArticlePayload)
  | updateCall (id : String) (payload : ArticlePayload)
  deriving DecidableEq, Repr

/-- JavaScript `tags.split(',')`: split on every comma, keeping empty pieces
(so the empty input yields one empty piece). -/
def splitCommas : List Char → List (List Char)
  | [] => [[]]
  | c :: rest =>
    if c = ',' then [] :: splitCommas rest
    else
      match splitCommas rest with
      | [] => [[c]]
      | g :: gs => (c :: g) :: gs

/-- The `articleData` object built in `ArticleEditor.handleSubmit`: trimmed
title and content, `category.trim() || null`, and the comma-split, trimmed,
non-empty tags. -/
def editorPayload (title content category tags : List Char) : ArticlePayload :=
  { title := jsTrim title
  , content := jsTrim content
  , category := if jsTrim category = [] then none else some (jsTrim category)
  , tags := ((splitCommas tags).map jsTrim).filter (fun t => !t.isEmpty) }

/-- `ArticleEditor.handleSubmit`: reject when `title.trim()` or
`content.trim()` is empty; otherwise build the payload, then call
`updateArticle` in edit mode and `createArticle` otherwise. -/
def handleSubmit (isEditMode : Bool) (id : String)
    (title content category tags : List Char) : EditorAction :=
  if jsTrim title = [] ∨ jsTrim content = [] then .validationFailed
  else if isEditMode then .updateCall id (editorPayload title content category tags)
  else .createCall (editorPayload title content category tags)

/-- Claim C5: the editor submit reports a validation error, calling neither
`createArticle` nor `updateArticle`, exactly when the trimmed title or trimmed
content is empty; any payload it does submit carries the trimmed title and
content, both non-empty. -/
theorem editor_validation_c5 (isEditMode : Bool) (id : String)
    (title content category tags : List Char) :
    (handleSubmit isEditMode id title content category tags = .validationFailed
      ↔ jsTrim title = [] ∨ jsTrim content = [])
    ∧ (∀ p, handleSubmit isEditMode id title content category tags = .createCall p
        ∨ handleSubmit isEditMode id title content category tags = .updateCall id p →
        p.title = jsTrim title ∧ p.content = jsTrim content
          ∧ p.title ≠ [] ∧ p.content ≠ []) := by
  by_cases h : jsTrim title = [] ∨ jsTrim content = []
  · constructor
    · simp [handleSubmit, h]
    · intro p hp
      rcases hp with hp | hp <;> rw [handleSubmit, if_pos h] at hp <;> cases hp
  · obtain ⟨ht, hc⟩ := not_or.mp h
    constructor
    · rw [handleSubmit, if_neg h]
      constructor
      · intro hp
        split at hp <;> cases hp
      · intro hp
        exact absurd hp h
    · intro p hp
      have hpay : p = editorPayload title content category tags := by
        rcases hp with hp | hp <;> rw [handleSubmit, if_neg h] at hp <;> split at hp <;>
          cases hp <;> rfl
      subst hpay
      exact ⟨rfl, rfl, ht, hc⟩

/-- Claim C5 witness: a whitespace-only title is rejected; a concrete valid
submission carries the trimmed fields. -/
theorem editor_validation_c5_witness :
    handleSubmit false "a1" [' '] ['c'] [] [] = .validationFailed
    ∧ (handleSubmit false "a1" [' ', 't', ' '] ['c'] [] []
        = .createCall { title := ['t'], content := ['c'], category := none, tags := [] }
      → (({ title := ['t'], content := ['c'], category := none
          , tags := [] } : ArticlePayload).title = jsTrim [' ', 't', ' '])) := by
  constructor
  · exact (editor_validation_c5 false "a1" [' '] ['c'] [] []).1.mpr (by decide)
  · intro hp
    exact ((editor_validation_c5 false "a1" [' ', 't', ' '] ['c'] [] []).2 _ (Or.inl hp)).1

/-- The outcome of an axios POST as the auth wrappers observe it: a successful
response with its body, or a thrown error whose `error.response?.data?.detail`
is an optional server detail string. -/
inductive HttpOutcome (β : Type) where
  | ok (body : β)
  | thrown (detail : Option (List Char))

/-- What an auth wrapper returns: the response body unchanged, or the
`{ success: false, error }` object built in the catch block. -/
inductive AuthResult (β : Type) where
  | body (b : β)
  | failure (error : List Char)

/-- JavaScript `x || fallback` on an optional string: both an absent value and
the empty string are falsy. -/
def jsOrText (x : Option (List Char)) (fallback : List Char) : List Char :=
  match x with
  | none => fallback
  | some s => if s.isEmpty then fallback else s

/-- The fixed fallback message of `register`. -/
def registerFallback : List Char := "Registration failed".toList

/-- The fixed fallback message of `login`. -/
def loginFallback : List Char := "Login failed".toList

/-- The fixed fallback message of `googleAuth`. -/
def googleAuthFallback : List Char := "Google auth failed".toList

/-- `api.register`: return the response body, or on any request failure the
`{ success: false, error: detail || 'Registration failed' }` object. -/
def register {β : Type} (outcome : HttpOutcome β) : AuthResult β :=
  match outcome with
  | .ok b => .body b
  | .thrown d => .failure (jsOrText d registerFallback)

/-- `api.login`: as `register`, with fallback message 'Login failed'. -/
def login {β : Type} (outcome : HttpOutcome β) : AuthResult β :=
  match outcome with
  | .ok b => .body b
  | .thrown d => .failure (jsOrText d loginFallback)

/-- `api.googleAuth`: as `register`, with fallback 'Google auth failed'. -/
def googleAuth {β : Type} (outcome : HttpOutcome β) : AuthResult β :=
  match outcome with
  | .ok b => .body b
  | .thrown d => .failure (jsOrText d googleAuthFallback)

theorem jsOrText_ne_nil (x : Option (List Char)) (fallback : List Char)
    (hf : fallback ≠ []) : jsOrText x fallback ≠ [] := by
  cases x with
  | none => exact hf
  | some s =>
    by_cases hs : s.isEmpty
    · simp [jsOrText, hs, hf]
    · simp only [jsOrText, if_neg hs]
      exact fun he => hs (by rw [he]; rfl)

/-- Claim C10: the auth wrappers are total functions of the request outcome —
on success each returns the server body unchanged; on any failure each returns
a failure object with a non-empty error string, namely the server's (non-empty)
detail when one is present and the wrapper's fixed fallback otherwise. -/
theorem auth_wrappers_total_c10 (β : Type) (outcome : HttpOutcome β) :
    (∀ b, outcome = .ok b →
      register outcome = .body b ∧ login outcome = .body b ∧ googleAuth outcome = .body b)
    ∧ (∀ d, outcome = .thrown d →
        register outcome = .failure (jsOrText d registerFallback)
        ∧ login outcome = .failure (jsOrText d loginFallback)
        ∧ googleAuth outcome = .failure (jsOrText d googleAuthFallback)
        ∧ jsOrText d registerFallback ≠ [] ∧ jsOrText d loginFallback ≠ []
        ∧ jsOrText d googleAuthFallback ≠ []
        ∧ (∀ v, d = some v → v ≠ [] →
            jsOrText d registerFallback = v ∧ jsOrText d loginFallback = v
              ∧ jsOrText d googleAuthFallback = v)
        ∧ (d = none →
            jsOrText d registerFallback = registerFallback
            ∧ jsOrText d loginFallback = loginFallback
            ∧ jsOrText d googleAuthFallback = googleAuthFallback)) := by
  constructor
  · rintro b rfl
    exact ⟨rfl, rfl, rfl⟩
  · rintro d rfl
    refine ⟨rfl, rfl, rfl, ?_, ?_, ?_, ?_, ?_⟩
    · exact jsOrText_ne_nil d _ (by decide)
    · exact jsOrText_ne_nil d _ (by decide)
    · exact jsOrText_ne_nil d _ (by decide)
    · rintro v rfl hv
      have hne : ¬v.isEmpty := fun he => hv (List.isEmpty_iff.mp he)
      refine ⟨?_, ?_, ?_⟩ <;> simp [jsOrText, hne]
    · rintro rfl
      exact ⟨rfl, rfl, rfl⟩

/-- Claim C10 witness: a failed request with no server detail yields the fixed
fallback messages; a successful one returns the body unchanged. -/
theorem auth_wrappers_total_c10_witness :
    register (HttpOutcome.thrown (β := Nat) none) = .failure registerFallback
    ∧ login (HttpOutcome.thrown (β := Nat) none) = .failure loginFallback
    ∧ googleAuth (HttpOutcome.thrown (β := Nat) none) = .failure googleAuthFallback
    ∧ register (HttpOutcome.ok (5 : Nat)) = .body 5 := by
  have h := (auth_wrappers_total_c10 Nat (HttpOutcome.thrown none)).2 none rfl
  have hf := h.2.2.2.2.2.2.2 rfl
  have hok := (auth_wrappers_total_c10 Nat (HttpOutcome.ok 5)).1 5 rfl
  refine ⟨?_, ?_, ?_, hok.1⟩
  · rw [h.1, hf.1]
  · rw [h.2.1, hf.2.1]
  · rw [h.2.2.1, hf.2.2]

end BlogHub
